import Mathlib

/-!
# Verification of `git-find-related-commits`

Shallow embedding of the core of the repository (package
`git_find_related_commits`: `__main__.py`, `git_helpers.py`) and proofs of
the specification claims about it.

Modelling conventions:
* Commits are identified by natural numbers (standing for hashes).
* Strings handed around by the git backend are embedded as `List Char`.
* The git backend (the external `git` executable driven through GitPython)
  is an environment `GitEnv` supplying parent lists, cherry-pick outcomes
  and `--shortstat` summary lines; the repository working copy is an
  explicit `RepoState` record (branch map, active branch, checked-out
  commit, dirty flag).
* Python exceptions are embedded as `Except PyErr`; every git invocation
  performed by the code is additionally recorded in a `GitOp` trace so that
  ordering claims (cleanup order, fail-fast) can be stated.
-/

/-- Errors raised by the Python code: `ValueError` from unpacking
`commit1.parents` into a single element, and `RuntimeError` from the
shortstat parser. -/
inductive PyErr where
  | valueError
  | runtimeError (msg : List Char)
  deriving DecidableEq

/-- The (deliberately apostrophe-free rendering of the) message of the
`RuntimeError` raised by `_get_shortstat_total`; the Python source builds
the literal text `Can't parse git --shortstat output ...`. -/
def shortstatErrMsg : List Char := "Cannot parse git --shortstat output".toList

/-! ## The shortstat summary-line parser

`SHORTSTAT_RE` (after `.replace("_", r"\ ")` and `re.VERBOSE`) is the
pattern, matched as a *prefix* by `re.match`:

  `\ \d+\ files?\ changed(?:,\ (\d+)\ insertions?\((\+)\))?(?:,\ (\d+)\ deletions?\(-\))?`

i.e. a literal leading space, a file count, `file(s) changed`, then an
optional insertion clause and an optional deletion clause.  Each greedy
token (`\d+`, `s?`) is followed by a character it can never match (a space
or an opening parenthesis), and an optional group that fails is skipped as
a whole, so the regex engine behaves as the deterministic
maximal-munch parser below. -/

/-- Numeric value of a digit string, as computed by Python `int`. -/
def natOfDigits (ds : List Char) : Nat :=
  ds.foldl (fun n c => 10 * n + (c.toNat - 48)) 0

/-- Match a literal piece of text at the head of the input, returning the
remainder. -/
def dropLit : List Char → List Char → Option (List Char)
  | [], s => some s
  | _ :: _, [] => none
  | c :: pre, d :: s => if c = d then dropLit pre s else none

/-- `\d+` (greedy): one or more digits, maximal munch. -/
def digits1 (s : List Char) : Option (Nat × List Char) :=
  if s.takeWhile Char.isDigit = [] then none
  else some (natOfDigits (s.takeWhile Char.isDigit), s.dropWhile Char.isDigit)

/-- `s?` (greedy); in every use site the following literal character is a
space or `(`, never `s`, so taking an available `s` is exact. -/
def optS : List Char → List Char
  | 's' :: rest => rest
  | s => s

/-- Optional group 1: `(?:, (\d+) insertions?\(\+\))?`. -/
def insClause (s : List Char) : Option (Nat × List Char) := do
  let s1 ← dropLit ", ".toList s
  let (n, s2) ← digits1 s1
  let s3 ← dropLit " insertion".toList s2
  let s4 ← dropLit "(+)".toList (optS s3)
  pure (n, s4)

/-- Optional group 2: `(?:, (\d+) deletions?\(-\))?`. -/
def delClause (s : List Char) : Option (Nat × List Char) := do
  let s1 ← dropLit ", ".toList s
  let (n, s2) ← digits1 s1
  let s3 ← dropLit " deletion".toList s2
  let s4 ← dropLit "(-)".toList (optS s3)
  pure (n, s4)

/-- `SHORTSTAT_RE.match`: prefix match of the whole pattern, returning the
two captured groups (`None` for a skipped group). -/
def shortstatMatch (s : List Char) : Option (Option Nat × Option Nat) := do
  let s1 ← dropLit " ".toList s
  let (_, s2) ← digits1 s1
  let s3 ← dropLit " file".toList s2
  let s4 ← dropLit " changed".toList (optS s3)
  match insClause s4 with
  | some (x, s5) =>
    match delClause s5 with
    | some (y, _) => pure (some x, some y)
    | none => pure (some x, none)
  | none =>
    match delClause s4 with
    | some (y, _) => pure (none, some y)
    | none => pure (none, none)

/-- `get_shortstat_total` (`git_helpers.py`): parse a
`git diff --shortstat` summary line; `RuntimeError` if the regex does not
match, otherwise `int(match.group(1) or 0) + int(match.group(2) or 0)`. -/
def get_shortstat_total (s : List Char) : Except PyErr Nat :=
  match shortstatMatch s with
  | none => .error (.runtimeError shortstatErrMsg)
  | some (g1, g2) => .ok (g1.getD 0 + g2.getD 0)

/-! ## Repository state and git operations -/

/-- One git invocation, recorded for ordering claims. -/
inductive GitOp where
  | createHead (name : String) (sha : Nat)
  | checkout (name : String)
  | resetHard
  | resetHardTo (sha : Nat)
  | cherryPick (sha : Nat)
  | diffShortstat (base : Nat)
  | showShortstat (sha : Nat)
  | deleteHead (name : String)
  deriving DecidableEq

/-- The mutable working copy: named branches, the active branch, the
commit the working tree is checked out at, and whether uncommitted state
is present. -/
structure RepoState where
  branches : List (String × Nat)
  head : String
  work : Nat
  dirty : Bool
  deriving DecidableEq

def lookupBranch (name : String) (bs : List (String × Nat)) : Option Nat :=
  (bs.find? (fun b => b.1 = name)).map (fun b => b.2)

def setBranch (name : String) (sha : Nat) (bs : List (String × Nat)) :
    List (String × Nat) :=
  (name, sha) :: bs.filter (fun b => b.1 ≠ name)

def delBranch (name : String) (bs : List (String × Nat)) : List (String × Nat) :=
  bs.filter (fun b => b.1 ≠ name)

/-- `repo.create_head(name, sha, force=True)`. -/
def createHead (name : String) (sha : Nat) (st : RepoState) : RepoState :=
  { st with branches := setBranch name sha st.branches }

/-- `repo.git.checkout(branch)`: the branch becomes the active reference
and the working tree moves to its tip. -/
def checkoutBranch (name : String) (st : RepoState) : RepoState :=
  { st with head := name, work := (lookupBranch name st.branches).getD st.work }

/-- `repo.git.reset("--hard")`: discard uncommitted working-copy state. -/
def resetHard (st : RepoState) : RepoState :=
  { st with dirty := false }

/-- `repo.git.reset("--hard", sha)`: repoint the active branch and working
tree at `sha`, discarding uncommitted state. -/
def resetHardTo (sha : Nat) (st : RepoState) : RepoState :=
  { st with branches := setBranch st.head sha st.branches, work := sha,
            dirty := false }

/-- `repo.delete_head(name, force=True)`. -/
def deleteHead (name : String) (st : RepoState) : RepoState :=
  { st with branches := delBranch name st.branches }

/-- Outcome of the `git cherry-pick` invocation.  GitPython raises the
same exception class `git.GitCommandError` both for a replay conflict and
for any other failing git invocation (nonzero exit for whatever reason);
the two non-`ok` constructors record which of the two situations the
backend was actually in. -/
inductive CherryOutcome where
  | ok (newSha : Nat)
  | conflict
  | cmdError
  deriving DecidableEq

/-- The git backend as seen by the code: parent lists of commits,
cherry-pick outcomes (keyed by the commit checked out and the commit being
picked), and the shortstat summary lines produced by `git diff` and
`git show`. -/
structure GitEnv where
  parents : Nat → List Nat
  cherry : Nat → Nat → CherryOutcome
  diffStat : Nat → Nat → List Char
  showStat : Nat → List Char

/-- `count_changed_lines_since` (`git_helpers.py`):
`git diff --shortstat commit0..HEAD` piped through the shortstat parser. -/
def count_changed_lines_since (env : GitEnv) (commit0 : Nat) (st : RepoState) :
    Except PyErr Nat :=
  get_shortstat_total (env.diffStat commit0 st.work)

/-! ## The temporary-branch sandbox and the scorer

`in_tmp_branch` (`git_helpers.py` / `GitHelper.in_tmp_branch`): save the
active branch, force-create the temporary branch at the given commit and
check it out, run the body, and in a `finally` clause reset hard, check
the previous branch out again and force-delete the temporary branch.  The
`except git.GitCommandError` clause of the source only prints the
repository status and re-raises, so it does not change the state; the
`finally` clause runs on every exit path (normal return, raised error,
early close of the generator), which the embedding reflects by running the
cleanup on the body result unconditionally. -/
def in_tmp_branch {α : Type} (name : String) (sha : Nat)
    (body : RepoState → Except PyErr α × RepoState × List GitOp)
    (st : RepoState) : Except PyErr α × RepoState × List GitOp :=
  let prev := st.head
  let r := body (checkoutBranch name (createHead name sha st))
  (r.1,
   deleteHead name (checkoutBranch prev (resetHard r.2.1)),
   [GitOp.createHead name sha, GitOp.checkout name] ++ r.2.2
     ++ [GitOp.resetHard, GitOp.checkout prev, GitOp.deleteHead name])

/-- `_TmpBranchName`. -/
def tmpBranchName : String := "tmp-find-related-commits"

/-- State after `git cherry-pick` raised `git.GitCommandError` inside the
loop body: the branch is still at `commit1` (after the preceding
`reset --hard commit1`) and the working tree holds partial/conflicted
state. -/
def conflictState (commit1 : Nat) (st : RepoState) : RepoState :=
  { resetHardTo commit1 st with dirty := true }

/-- State after a successful `git cherry-pick`: the temporary branch
(committed by the pick) and the working tree advance to the new commit. -/
def pickState (commit1 newSha : Nat) (st : RepoState) : RepoState :=
  { resetHardTo commit1 st with
      branches := setBranch (resetHardTo commit1 st).head newSha
                    (resetHardTo commit1 st).branches,
      work := newSha }

/-- `GitHelper.apply_and_diff_each_commit2` (`__main__.py`): for every
later commit, reset hard to `commit1`, attempt the cherry-pick
(`git.GitCommandError` — conflict or any other failing git invocation — is
caught and turned into the yield `(commit2, None, None)`), then measure
the combined diff and `commit2`'s standalone diff and yield scores by the
sign of `rel_diff_c`.  The list of yields stands for the values the
generator produces; a raised error aborts the generator and its consumer,
so no partial list is returned in that case. -/
def apply_and_diff_each_commit2 (env : GitEnv) (commit0 commit1 : Nat)
    (diff_count1 : Int) :
    List Nat → RepoState →
      Except PyErr (List (Nat × Option Int × Option Int)) × RepoState × List GitOp
  | [], st => (.ok [], st, [])
  | commit2 :: rest, st =>
    match env.cherry commit1 commit2 with
    | .conflict | .cmdError =>
      let r := apply_and_diff_each_commit2 env commit0 commit1 diff_count1 rest
                 (conflictState commit1 st)
      (r.1.map (fun t => (commit2, none, none) :: t), r.2.1,
       GitOp.resetHardTo commit1 :: GitOp.cherryPick commit2 :: r.2.2)
    | .ok newSha =>
      let st2 := pickState commit1 newSha st
      match count_changed_lines_since env commit0 st2 with
      | .error e =>
        (.error e, st2,
         [GitOp.resetHardTo commit1, GitOp.cherryPick commit2,
          GitOp.diffShortstat commit0])
      | .ok diff_count2 =>
        match get_shortstat_total (env.showStat commit2) with
        | .error e =>
          (.error e, st2,
           [GitOp.resetHardTo commit1, GitOp.cherryPick commit2,
            GitOp.diffShortstat commit0, GitOp.showShortstat commit2])
        | .ok own =>
          let rel_diff : Int := (diff_count2 : Int) - diff_count1
          let rel_diff_c : Int := rel_diff - (own : Int)
          let r := apply_and_diff_each_commit2 env commit0 commit1 diff_count1
                     rest st2
          (r.1.map (fun t =>
             (if rel_diff_c ≥ 0 then (commit2, none, none)
              else (commit2, some rel_diff, some rel_diff_c)) :: t),
           r.2.1,
           GitOp.resetHardTo commit1 :: GitOp.cherryPick commit2 ::
             GitOp.diffShortstat commit0 :: GitOp.showShortstat commit2 :: r.2.2)

/-- The consumer side of the generator in
`GitHelper.apply_and_diff_commit_pairs`: a pair is appended to `results`
exactly when both yielded scores are not `None`, as
`(rel_diff_c, rel_diff, commit1, commit2)`. -/
def collectScored (commit1 : Nat)
    (items : List (Nat × Option Int × Option Int)) :
    List (Int × Int × Nat × Nat) :=
  items.filterMap (fun it =>
    match it with
    | (commit2, some rel_diff, some rel_diff_c) =>
      some (rel_diff_c, rel_diff, commit1, commit2)
    | _ => none)

/-- The body run inside `in_tmp_branch` for one `commit1`: measure the
baseline `diff_count1` and consume the generator.  The source guards
`if diff_count1 is None: continue`, but `count_changed_lines_since`
returns an `int` or raises, never `None`, so that branch is unreachable
and has no counterpart here. -/
def pairsBody (env : GitEnv) (commit0 commit1 : Nat) (rest : List Nat)
    (st : RepoState) :
    Except PyErr (List (Int × Int × Nat × Nat)) × RepoState × List GitOp :=
  match count_changed_lines_since env commit0 st with
  | .error e => (.error e, st, [GitOp.diffShortstat commit0])
  | .ok diff_count1 =>
    let r := apply_and_diff_each_commit2 env commit0 commit1
               ((diff_count1 : Nat) : Int) rest st
    (r.1.map (collectScored commit1), r.2.1, GitOp.diffShortstat commit0 :: r.2.2)

/-- `GitHelper.apply_and_diff_commit_pairs`, iterating over the commit
list: `(commit0,) = commit1.parents` raises `ValueError` unless `commit1`
has exactly one parent (before any git operation for this commit); the
per-commit work runs inside `in_tmp_branch`. -/
def apply_and_diff_commit_pairs (env : GitEnv) :
    List Nat → RepoState →
      Except PyErr (List (Int × Int × Nat × Nat)) × RepoState × List GitOp
  | [], st => (.ok [], st, [])
  | commit1 :: rest, st =>
    match env.parents commit1 with
    | [commit0] =>
      let r := in_tmp_branch tmpBranchName commit1
                 (pairsBody env commit0 commit1 rest) st
      (match r.1 with
       | .error e => (.error e, r.2.1, r.2.2)
       | .ok items =>
         let r2 := apply_and_diff_commit_pairs env rest r.2.1
         (r2.1.map (fun t => items ++ t), r2.2.1, r.2.2 ++ r2.2.2))
    | _ => (.error .valueError, st, [])

/-! ## The commit list

`get_commit_list` (`git_helpers.py`) asks the backend for
`merge_base(main_branch, local_branch)[0]` and for
`iter_commits(f"{base_commit}..{local_branch}")`, and reverses the latter.
The scope of the tool is a linear, rebased-style history (a commit with
more than one parent makes the scorer fail), so the backend enumeration is
modelled for linear histories: `git rev-list base..tip` walks the parent
links from `tip`, newest first, stopping at `base`.  The merge base is a
parameter (it is computed by the backend).  `fuel` bounds the walk, as the
real walk is bounded by the finite, acyclic history. -/

/-- Backend model: `repo.iter_commits(f"{base}..{tip}")` on a linear
history — the commits reachable from `tip` and not from `base`, newest
first. -/
def revListRange (parent : Nat → Option Nat) : Nat → Nat → Nat → List Nat
  | 0, _, _ => []
  | fuel + 1, base, tip =>
    if tip = base then []
    else
      tip :: (match parent tip with
              | some p => revListRange parent fuel base p
              | none => [])

/-- `get_commit_list` (`git_helpers.py`):
`list(reversed(list(repo.iter_commits(f"{base_commit}..{local_branch}"))))`. -/
def get_commit_list (parent : Nat → Option Nat) (fuel base tip : Nat) :
    List Nat :=
  (revListRange parent fuel base tip).reverse

/-- `d` is an ancestor of (or equal to) `c` in the commit graph. -/
inductive Reachable (parent : Nat → Option Nat) : Nat → Nat → Prop where
  | refl (c : Nat) : Reachable parent c c
  | step {c p d : Nat} : parent c = some p → Reachable parent p d →
      Reachable parent c d

/-- A linear chain of commits listed newest first: each element's parent
is the next element, and the last element's parent is `base`. -/
def walkChain (parent : Nat → Option Nat) (base : Nat) : List Nat → Prop
  | [] => True
  | [c] => parent c = some base
  | c :: p :: rest => parent c = some p ∧ walkChain parent base (p :: rest)

/-- A linear chain of commits listed oldest first, growing from `s`: each
element's parent is the preceding element. -/
def upChain (parent : Nat → Option Nat) : Nat → List Nat → Prop
  | _, [] => True
  | s, c :: rest => parent c = some s ∧ upChain parent c rest

/-- Replaying commit `c` onto a working copy at `c`'s own parent
reproduces `c`; onto anything else it is undefined (conflicts aside, this
is all claim C7 needs). -/
def applyCommit (parent : Nat → Option Nat) (s c : Nat) : Option Nat :=
  if parent c = some s then some c else none

/-- Fold "apply in order" over a start state. -/
def applyAll (parent : Nat → Option Nat) (s : Nat) : List Nat → Option Nat
  | [] => some s
  | c :: rest =>
    match applyCommit parent s c with
    | some s2 => applyAll parent s2 rest
    | none => none

/-! ## The spec-side summary-line grammar

The spec states the grammar
`"<N> file(s) changed[, <X> insertion(s)(+)][, <Y> deletion(s)(-)]"` for
whole summary lines, with an absent clause contributing 0. -/

/-- Modelled from the spec: the summary-line grammar exactly as the spec
writes it — no leading space, and the whole line must be consumed — with
an absent clause contributing 0.  Used only to compare the spec's grammar
with the source's `SHORTSTAT_RE` prefix match. -/
def specGrammarParse (s : List Char) : Option (Nat × Nat) :=
  match digits1 s with
  | none => none
  | some (_, s1) =>
    match dropLit " file".toList s1 with
    | none => none
    | some s2 =>
      match dropLit " changed".toList (optS s2) with
      | none => none
      | some s3 =>
        match insClause s3 with
        | some (x, s4) =>
          match delClause s4 with
          | some (y, s5) => if s5 = [] then some (x, y) else none
          | none => if s4 = [] then some (x, 0) else none
        | none =>
          match delClause s3 with
          | some (y, s5) => if s5 = [] then some (0, y) else none
          | none => if s3 = [] then some (0, 0) else none

/-! Assembled summary lines, for quantified statements about the parser:
an optional clause carries its digit string and whether the plural form is
used. -/

def insPart : Option (List Char × Bool) → List Char
  | none => []
  | some (ds, plural) =>
    ", ".toList ++ ds ++ " insertion".toList
      ++ (if plural then ['s'] else []) ++ "(+)".toList

def delPart : Option (List Char × Bool) → List Char
  | none => []
  | some (ds, plural) =>
    ", ".toList ++ ds ++ " deletion".toList
      ++ (if plural then ['s'] else []) ++ "(-)".toList

/-- A summary line in the shape the source's regex accepts: leading space,
file-count clause (singular or plural), optional insertion and deletion
clauses. -/
def mkShortstat (nf : List Char) (filesPlural : Bool)
    (ins del : Option (List Char × Bool)) : List Char :=
  " ".toList ++ nf ++ " file".toList ++ (if filesPlural then ['s'] else [])
    ++ " changed".toList ++ insPart ins ++ delPart del

/-- The count contributed by an optional clause (0 when absent). -/
def clauseVal : Option (List Char × Bool) → Nat
  | none => 0
  | some (ds, _) => natOfDigits ds

/-! ## Concrete fixtures used by the witnesses and counterexamples -/

/-- A working copy on branch `main` at commit 0. -/
def wSt : RepoState :=
  { branches := [("main", 0)], head := "main", work := 0, dirty := false }

/-- A one-line shortstat reporting three inserted lines. -/
def statIns3 : List Char := " 1 file changed, 3 insertions(+)".toList

/-- A one-line shortstat reporting five inserted lines. -/
def statIns5 : List Char := " 1 file changed, 5 insertions(+)".toList

/-- A one-line shortstat reporting one inserted line. -/
def statIns1 : List Char := " 1 file changed, 1 insertion(+)".toList

/-- Backend where every cherry-pick applies cleanly. -/
def wEnvOk : GitEnv :=
  { parents := fun c => if c = 0 then [] else [c - 1]
    cherry := fun _ c2 => .ok (c2 + 10)
    diffStat := fun _ _ => statIns3
    showStat := fun _ => statIns5 }

/-- Backend where every cherry-pick hits a replay conflict. -/
def wEnvConflict : GitEnv :=
  { parents := fun c => if c = 0 then [] else [c - 1]
    cherry := fun _ _ => .conflict
    diffStat := fun _ _ => statIns3
    showStat := fun _ => statIns5 }

/-- Backend where the cherry-pick invocation fails for a reason other than
a conflict (still raising `git.GitCommandError`). -/
def wEnvCmdError : GitEnv :=
  { parents := fun c => if c = 0 then [] else [c - 1]
    cherry := fun _ _ => .cmdError
    diffStat := fun _ _ => statIns3
    showStat := fun _ => statIns5 }

/-- Backend where the baseline diff of commit 1 against commit 0 produces
an empty summary line (and is therefore unparseable), while every other
measurement succeeds. -/
def wEnvNoBaseline : GitEnv :=
  { parents := fun c => if c = 0 then [] else [c - 1]
    cherry := fun _ c2 => .ok (c2 + 10)
    diffStat := fun c0 h => if c0 = 0 then (if h = 1 then [] else statIns1) else statIns1
    showStat := fun _ => statIns1 }

/-- Backend where every diff summary is the empty string. -/
def wEnvEmptyDiff : GitEnv :=
  { parents := fun c => if c = 0 then [] else [c - 1]
    cherry := fun _ c2 => .ok (c2 + 10)
    diffStat := fun _ _ => []
    showStat := fun _ => statIns1 }

/-- Backend where commit 1 is a merge commit (two parents). -/
def wEnvMerge : GitEnv :=
  { parents := fun _ => [5, 6]
    cherry := fun _ _ => .conflict
    diffStat := fun _ _ => statIns1
    showStat := fun _ => statIns1 }

/-- The parent map of the linear history 0 ← 1 ← 2 ← 3 (0 is the root). -/
def wParent : Nat → Option Nat
  | 0 => none
  | n + 1 => some n

/-! ## C1: the sandbox restores the previous state on every exit path -/

theorem lookupBranch_delBranch (name : String) (bs : List (String × Nat)) :
    lookupBranch name (delBranch name bs) = none := by
  induction bs with
  | nil => rfl
  | cons b bs ih =>
    by_cases h : b.1 = name
    · simp [delBranch, lookupBranch, List.filter_cons, h] at ih ⊢
    · simp [delBranch, lookupBranch, List.filter_cons, List.find?_cons, h] at ih ⊢

/-- C1.  For every body run inside `in_tmp_branch` — whether it returns
normally or with an error — on exit the manager performs, in this order, a
hard reset, a checkout of the previously active branch and a forced
deletion of the temporary branch; consequently the active reference and
the absence of uncommitted state are restored and the temporary branch no
longer exists. -/
theorem in_tmp_branch_restores {α : Type} (name : String) (sha : Nat)
    (body : RepoState → Except PyErr α × RepoState × List GitOp)
    (st : RepoState) :
    (in_tmp_branch name sha body st).2.1.head = st.head ∧
    lookupBranch name (in_tmp_branch name sha body st).2.1.branches = none ∧
    (in_tmp_branch name sha body st).2.1.dirty = false ∧
    ∃ pre, (in_tmp_branch name sha body st).2.2 =
      pre ++ [GitOp.resetHard, GitOp.checkout st.head, GitOp.deleteHead name] := by
  refine ⟨rfl, ?_, rfl, ?_⟩
  · exact lookupBranch_delBranch name _
  · exact ⟨[GitOp.createHead name sha, GitOp.checkout name]
      ++ (body (checkoutBranch name (createHead name sha st))).2.2, by
        simp [in_tmp_branch]⟩

/-! ## C2: a pair is emitted exactly when the adjusted score is negative -/

/-- C2.  When the replay of `commit2` on top of `commit1` succeeds and
both measurements parse, the scorer computes
`rel_diff = diff_count2 - diff_count1` and
`rel_diff_c = rel_diff - own`, yields the scored pair exactly when
`rel_diff_c < 0` (and `(commit2, None, None)` otherwise), and the consumer
appends to the results exactly the non-`None` yields. -/
theorem scorer_emits_iff_negative (env : GitEnv) (commit0 commit1 : Nat)
    (diff_count1 : Int) (commit2 : Nat) (rest : List Nat) (st : RepoState)
    (newSha diff_count2 own : Nat)
    (hch : env.cherry commit1 commit2 = .ok newSha)
    (hd2 : get_shortstat_total (env.diffStat commit0 newSha) = .ok diff_count2)
    (hown : get_shortstat_total (env.showStat commit2) = .ok own) :
    (apply_and_diff_each_commit2 env commit0 commit1 diff_count1
        (commit2 :: rest) st).1 =
      ((apply_and_diff_each_commit2 env commit0 commit1 diff_count1 rest
          (pickState commit1 newSha st)).1).map
        (fun t =>
          (if ((diff_count2 : Int) - diff_count1) - (own : Int) < 0
           then (commit2, some ((diff_count2 : Int) - diff_count1),
                 some (((diff_count2 : Int) - diff_count1) - (own : Int)))
           else (commit2, none, none)) :: t) ∧
    (∀ items rel adj,
        collectScored commit1 ((commit2, some rel, some adj) :: items) =
          (adj, rel, commit1, commit2) :: collectScored commit1 items) ∧
    (∀ items, collectScored commit1 ((commit2, none, none) :: items) =
        collectScored commit1 items) := by
  refine ⟨?_, ?_, ?_⟩
  · have hwork : count_changed_lines_since env commit0
        (pickState commit1 newSha st) = .ok diff_count2 := by
      simpa [count_changed_lines_since, pickState] using hd2
    simp only [apply_and_diff_each_commit2, hch, hwork, hown]
    by_cases hneg : ((diff_count2 : Int) - diff_count1) - (own : Int) < 0
    · rw [if_pos hneg, if_neg (by omega)]
    · rw [if_neg hneg, if_pos (by omega)]
  · intro items rel adj
    simp [collectScored]
  · intro items
    simp [collectScored]

/-- Witness for C2: a concrete backend where the pick of commit 2 onto
commit 1 succeeds with combined size 3, baseline 1 and standalone size 5,
so `rel_diff = 2` and `rel_diff_c = -3 < 0`, and the pair is emitted. -/
theorem scorer_emits_iff_negative_witness :
    wEnvOk.cherry 1 2 = .ok 12 ∧
    get_shortstat_total (wEnvOk.diffStat 0 12) = .ok 3 ∧
    get_shortstat_total (wEnvOk.showStat 2) = .ok 5 ∧
    (apply_and_diff_each_commit2 wEnvOk 0 1 1 [2] wSt).1 =
      .ok [(2, some 2, some (-3))] ∧
    collectScored 1 [(2, some 2, some (-3))] = [(-3, 2, 1, 2)] := by
  have h := scorer_emits_iff_negative wEnvOk 0 1 1 2 [] wSt 12 3 5 rfl rfl rfl
  refine ⟨rfl, rfl, rfl, ?_, ?_⟩
  · rw [h.1]; rfl
  · rw [h.2.1 [] 2 (-3)]; rfl

/-! ## C3: a conflict skips the pair and the scan continues -/

/-- C3.  When replaying `commit2` onto the sandbox at `commit1` conflicts,
the generator yields `(commit2, None, None)` — which the consumer never
appends to the results — and continues with exactly the remaining later
commits. -/
theorem conflict_skips_pair_and_continues (env : GitEnv)
    (commit0 commit1 : Nat) (diff_count1 : Int) (commit2 : Nat)
    (rest : List Nat) (st : RepoState)
    (hch : env.cherry commit1 commit2 = .conflict) :
    (apply_and_diff_each_commit2 env commit0 commit1 diff_count1
        (commit2 :: rest) st).1 =
      ((apply_and_diff_each_commit2 env commit0 commit1 diff_count1 rest
          (conflictState commit1 st)).1).map
        (fun t => (commit2, none, none) :: t) ∧
    (∀ items, collectScored commit1 ((commit2, none, none) :: items) =
        collectScored commit1 items) := by
  constructor
  · simp only [apply_and_diff_each_commit2, hch]
  · intro items
    simp [collectScored]

/-- Witness for C3: with a backend that always conflicts, the scan over
`[2, 3]` after commit 1 yields both pairs as unscorable and the results
stay empty. -/
theorem conflict_skips_pair_and_continues_witness :
    wEnvConflict.cherry 1 2 = .conflict ∧
    (apply_and_diff_each_commit2 wEnvConflict 0 1 1 [2, 3] wSt).1 =
      .ok [(2, none, none), (3, none, none)] ∧
    collectScored 1 [(2, none, none), (3, none, none)] = [] := by
  have h := conflict_skips_pair_and_continues wEnvConflict 0 1 1 2 [3] wSt rfl
  refine ⟨rfl, ?_, ?_⟩
  · rw [h.1]; rfl
  · rw [h.2 [(3, none, none)]]; rfl

/-! ## C4: which backend failures are fatal

The source wraps only the `cherry_pick` call in
`except git.GitCommandError`, and `git.GitCommandError` is what GitPython
raises for *any* failing git invocation — a replay conflict or anything
else.  So a non-conflict backend failure at the replay step is absorbed as
"pair not scorable" exactly like a conflict, while failures at the
measurement/parse steps are fatal and propagate after the sandbox
cleanup. -/

/-- Counterexample to C4 as stated: a backend failure of the cherry-pick
invocation that is *not* a replay conflict is absorbed as an unscorable
pair; no error propagates and the run is not terminated. -/
theorem backend_failure_absorbed_counterexample :
    wEnvCmdError.cherry 1 2 = .cmdError ∧
    (apply_and_diff_each_commit2 wEnvCmdError 0 1 1 [2] wSt).1 =
      .ok [(2, none, none)] :=
  ⟨rfl, rfl⟩

/-- C4 (amended).  (a) A non-conflict `git.GitCommandError` at the replay
step is absorbed exactly like a conflict and the scan continues; (b) an
error raised anywhere else in the sandbox body is fatal: it aborts the
scorer for the current `commit1` and the whole run, propagating only after
the sandbox cleanup (hard reset, checkout of the previous branch, deletion
of the temporary branch) has run. -/
theorem backend_failure_semantics :
    (∀ (env : GitEnv) (commit0 commit1 : Nat) (diff_count1 : Int)
       (commit2 : Nat) (rest : List Nat) (st : RepoState),
       env.cherry commit1 commit2 = .cmdError →
       (apply_and_diff_each_commit2 env commit0 commit1 diff_count1
           (commit2 :: rest) st).1 =
         ((apply_and_diff_each_commit2 env commit0 commit1 diff_count1 rest
             (conflictState commit1 st)).1).map
           (fun t => (commit2, none, none) :: t)) ∧
    (∀ (env : GitEnv) (commit1 commit0 : Nat) (rest : List Nat)
       (st : RepoState) (e : PyErr),
       env.parents commit1 = [commit0] →
       (pairsBody env commit0 commit1 rest
           (checkoutBranch tmpBranchName
             (createHead tmpBranchName commit1 st))).1 = .error e →
       (apply_and_diff_commit_pairs env (commit1 :: rest) st).1 = .error e ∧
       (apply_and_diff_commit_pairs env (commit1 :: rest) st).2.1.head = st.head ∧
       lookupBranch tmpBranchName
         (apply_and_diff_commit_pairs env (commit1 :: rest) st).2.1.branches = none ∧
       ∃ pre, (apply_and_diff_commit_pairs env (commit1 :: rest) st).2.2 =
         pre ++ [GitOp.resetHard, GitOp.checkout st.head,
                 GitOp.deleteHead tmpBranchName]) := by
  constructor
  · intro env commit0 commit1 diff_count1 commit2 rest st hch
    simp only [apply_and_diff_each_commit2, hch]
  · intro env commit1 commit0 rest st e hp hbody
    have key : apply_and_diff_commit_pairs env (commit1 :: rest) st =
        (.error e,
         deleteHead tmpBranchName (checkoutBranch st.head (resetHard
           (pairsBody env commit0 commit1 rest
              (checkoutBranch tmpBranchName
                (createHead tmpBranchName commit1 st))).2.1)),
         [GitOp.createHead tmpBranchName commit1, GitOp.checkout tmpBranchName]
           ++ (pairsBody env commit0 commit1 rest
                (checkoutBranch tmpBranchName
                  (createHead tmpBranchName commit1 st))).2.2
           ++ [GitOp.resetHard, GitOp.checkout st.head,
               GitOp.deleteHead tmpBranchName]) := by
      simp only [apply_and_diff_commit_pairs, hp, in_tmp_branch, hbody]
    rw [key]
    exact ⟨rfl, rfl, lookupBranch_delBranch _ _,
      ⟨[GitOp.createHead tmpBranchName commit1, GitOp.checkout tmpBranchName]
         ++ (pairsBody env commit0 commit1 rest
              (checkoutBranch tmpBranchName
                (createHead tmpBranchName commit1 st))).2.2, by simp⟩⟩

/-- Witness for C4 (amended): the absorption branch on a concrete
`cmdError` backend, and the fatal branch on a backend whose baseline diff
summary is empty (unparseable), where the run aborts with the parse error
and the active branch is back on `main`. -/
theorem backend_failure_semantics_witness :
    wEnvCmdError.cherry 1 2 = .cmdError ∧
    (apply_and_diff_each_commit2 wEnvCmdError 0 1 1 [2] wSt).1 =
      .ok [(2, none, none)] ∧
    wEnvNoBaseline.parents 1 = [0] ∧
    (apply_and_diff_commit_pairs wEnvNoBaseline [1, 2] wSt).1 =
      .error (.runtimeError shortstatErrMsg) ∧
    (apply_and_diff_commit_pairs wEnvNoBaseline [1, 2] wSt).2.1.head = "main" := by
  have hA := backend_failure_semantics.1 wEnvCmdError 0 1 1 2 [] wSt rfl
  have hB := backend_failure_semantics.2 wEnvNoBaseline 1 0 [2] wSt
    (.runtimeError shortstatErrMsg) rfl rfl
  refine ⟨rfl, ?_, rfl, hB.1, hB.2.1⟩
  rw [hA]; rfl

/-! ## C8: a commit with more than one parent fails fast -/

/-- C8.  When the commit at the head of the remaining list has more than
one parent, tuple unpacking raises before any git operation for that
commit: the run errors with the state unchanged and an empty operation
trace. -/
theorem multi_parent_fails_fast (env : GitEnv) (commit1 : Nat)
    (rest : List Nat) (st : RepoState)
    (h : 1 < (env.parents commit1).length) :
    apply_and_diff_commit_pairs env (commit1 :: rest) st =
      (.error .valueError, st, []) := by
  rcases hp : env.parents commit1 with _ | ⟨a, _ | ⟨b, l⟩⟩
  · rw [hp] at h; simp at h
  · rw [hp] at h; simp at h
  · simp only [apply_and_diff_commit_pairs, hp]

/-- Witness for C8: commit 1 has parents `[5, 6]` and the run fails fast
with nothing executed. -/
theorem multi_parent_fails_fast_witness :
    1 < (wEnvMerge.parents 1).length ∧
    apply_and_diff_commit_pairs wEnvMerge [1] wSt =
      (.error .valueError, wSt, []) :=
  ⟨by decide, multi_parent_fails_fast wEnvMerge 1 [] wSt (by decide)⟩

/-! ## C9: an uncomputable baseline aborts the run

The source guards `if diff_count1 is None: continue`, but
`count_changed_lines_since` returns an `int` or raises — it never returns
`None` — so the guard is dead code: when the baseline cannot be computed
the raised error is fatal and the scan does *not* continue with the next
commit. -/

/-- Counterexample to C9 as stated: with a backend whose baseline diff for
commit 1 is the empty (unparseable) summary, the whole run aborts with the
parse error instead of abandoning commit 1 and continuing with commit 2. -/
theorem baseline_skip_counterexample :
    wEnvNoBaseline.diffStat 0 1 = [] ∧
    (apply_and_diff_commit_pairs wEnvNoBaseline [1, 2] wSt).1 =
      .error (.runtimeError shortstatErrMsg) :=
  ⟨rfl, rfl⟩

/-- C9 (amended).  The baseline measurement either returns a count or
raises; when it raises, the error propagates out of the whole scan (after
the sandbox cleanup) instead of the scan moving on to the next commit. -/
theorem uncomputable_baseline_aborts (env : GitEnv) (commit1 commit0 : Nat)
    (rest : List Nat) (st : RepoState) (e : PyErr)
    (hp : env.parents commit1 = [commit0])
    (hbase : count_changed_lines_since env commit0
        (checkoutBranch tmpBranchName (createHead tmpBranchName commit1 st)) =
        .error e) :
    (apply_and_diff_commit_pairs env (commit1 :: rest) st).1 = .error e := by
  simp only [apply_and_diff_commit_pairs, hp, in_tmp_branch, pairsBody, hbase]

/-- Witness for C9 (amended) at the concrete no-baseline backend. -/
theorem uncomputable_baseline_aborts_witness :
    wEnvNoBaseline.parents 1 = [0] ∧
    count_changed_lines_since wEnvNoBaseline 0
      (checkoutBranch tmpBranchName (createHead tmpBranchName 1 wSt)) =
      .error (.runtimeError shortstatErrMsg) ∧
    (apply_and_diff_commit_pairs wEnvNoBaseline [1, 2] wSt).1 =
      .error (.runtimeError shortstatErrMsg) :=
  ⟨rfl, rfl, uncomputable_baseline_aborts wEnvNoBaseline 1 0 [2] wSt
    (.runtimeError shortstatErrMsg) rfl rfl⟩

/-! ## C10: an empty diff summary is fatal, never zero -/

/-- C10.  The empty summary line (what `git diff --shortstat` prints when
the diff is empty) does not parse: `count_changed_lines_since` raises the
parse error rather than returning 0, and an experiment whose combined
diff summary is empty aborts the scan with that error. -/
theorem empty_diff_summary_fatal :
    (get_shortstat_total ([] : List Char) =
      .error (.runtimeError shortstatErrMsg)) ∧
    (∀ (env : GitEnv) (commit0 : Nat) (st : RepoState),
       env.diffStat commit0 st.work = [] →
       count_changed_lines_since env commit0 st =
         .error (.runtimeError shortstatErrMsg)) ∧
    (∀ (env : GitEnv) (commit0 commit1 : Nat) (diff_count1 : Int)
       (commit2 : Nat) (rest : List Nat) (st : RepoState) (newSha : Nat),
       env.cherry commit1 commit2 = .ok newSha →
       env.diffStat commit0 newSha = [] →
       (apply_and_diff_each_commit2 env commit0 commit1 diff_count1
           (commit2 :: rest) st).1 =
         .error (.runtimeError shortstatErrMsg)) := by
  refine ⟨rfl, ?_, ?_⟩
  · intro env commit0 st h
    simp only [count_changed_lines_since, h]
    rfl
  · intro env commit0 commit1 diff_count1 commit2 rest st newSha hch hdiff
    have hcount : count_changed_lines_since env commit0
        (pickState commit1 newSha st) = .error (.runtimeError shortstatErrMsg) := by
      simp only [count_changed_lines_since, pickState, hdiff]
      rfl
    simp only [apply_and_diff_each_commit2, hch, hcount]

/-- Witness for C10 at the all-empty-diff backend. -/
theorem empty_diff_summary_fatal_witness :
    wEnvEmptyDiff.diffStat 0 0 = [] ∧
    count_changed_lines_since wEnvEmptyDiff 0 wSt =
      .error (.runtimeError shortstatErrMsg) ∧
    wEnvEmptyDiff.cherry 1 2 = .ok 12 ∧
    (apply_and_diff_each_commit2 wEnvEmptyDiff 0 1 1 [2] wSt).1 =
      .error (.runtimeError shortstatErrMsg) :=
  ⟨rfl,
   empty_diff_summary_fatal.2.1 wEnvEmptyDiff 0 wSt rfl,
   rfl,
   empty_diff_summary_fatal.2.2 wEnvEmptyDiff 0 1 1 2 [] wSt 12 rfl rfl⟩

/-! ## C7: the commit list enumerates the branch oldest-first -/

theorem reachable_cases {parent : Nat → Option Nat} {a d : Nat}
    (h : Reachable parent a d) :
    a = d ∨ ∃ p, parent a = some p ∧ Reachable parent p d := by
  cases h with
  | refl => exact Or.inl rfl
  | step hp hr => exact Or.inr ⟨_, hp, hr⟩

theorem revListRange_self (parent : Nat → Option Nat) (fuel base : Nat) :
    revListRange parent fuel base base = [] := by
  cases fuel with
  | zero => rfl
  | succ f => simp [revListRange]

/-- The backend walk reproduces a linear chain exactly (newest first). -/
theorem revListRange_walkChain (parent : Nat → Option Nat) (base : Nat) :
    ∀ (ds : List Nat) (fuel : Nat), walkChain parent base ds →
      base ∉ ds → ds.length ≤ fuel →
      revListRange parent fuel base (ds.headD base) = ds := by
  intro ds
  induction ds with
  | nil => intro fuel _ _ _; exact revListRange_self parent fuel base
  | cons c rest ih =>
    intro fuel hw hb hf
    cases fuel with
    | zero => simp at hf
    | succ f =>
      have hcb : c ≠ base := by
        intro hEq
        exact hb (hEq ▸ List.mem_cons_self c rest)
      show revListRange parent (f + 1) base c = c :: rest
      cases rest with
      | nil =>
        have hp : parent c = some base := hw
        simp [revListRange, hcb, hp, revListRange_self]
      | cons p rest2 =>
        have hp : parent c = some p := hw.1
        have hihh := ih f hw.2
          (fun hm => hb (List.mem_cons_of_mem _ hm))
          (by simpa using Nat.le_of_succ_le_succ hf)
        simp only [List.headD_cons] at hihh
        simp [revListRange, hcb, hp, hihh]

theorem upChain_append_single (parent : Nat → Option Nat) :
    ∀ (l : List Nat) (s c : Nat),
      upChain parent s (l ++ [c]) ↔
        upChain parent s l ∧ parent c = some (l.getLastD s) := by
  intro l
  induction l with
  | nil => intro s c; simp [upChain]
  | cons a l ih =>
    intro s c
    rw [List.cons_append]
    show (parent a = some s ∧ upChain parent a (l ++ [c])) ↔ _
    rw [ih a c, List.getLastD_cons]
    exact and_assoc.symm

theorem getLastD_reverse {α : Type} (l : List α) (d : α) :
    l.reverse.getLastD d = l.headD d := by
  cases l with
  | nil => rfl
  | cons a t => simp [List.reverse_cons, List.getLastD_concat]

/-- A newest-first chain read backwards is an oldest-first chain. -/
theorem upChain_reverse_of_walkChain (parent : Nat → Option Nat) (base : Nat) :
    ∀ ds, walkChain parent base ds → upChain parent base ds.reverse := by
  intro ds
  induction ds with
  | nil => intro _; trivial
  | cons c rest ih =>
    intro hw
    cases rest with
    | nil => exact ⟨hw, trivial⟩
    | cons p rest2 =>
      have hup := ih hw.2
      rw [List.reverse_cons, upChain_append_single]
      refine ⟨hup, ?_⟩
      rw [getLastD_reverse]
      exact hw.1

theorem mem_reachable_of_walkChain (parent : Nat → Option Nat) (base : Nat) :
    ∀ ds, walkChain parent base ds →
      ∀ c ∈ ds, Reachable parent (ds.headD base) c := by
  intro ds
  induction ds with
  | nil => intro _ c hc; simp at hc
  | cons a rest ih =>
    intro hw c hc
    rcases List.mem_cons.mp hc with rfl | hc2
    · exact Reachable.refl c
    · cases rest with
      | nil => simp at hc2
      | cons p rest2 =>
        exact Reachable.step hw.1 (ih hw.2 c hc2)

theorem reachable_mem_of_walkChain (parent : Nat → Option Nat) (base : Nat) :
    ∀ ds, walkChain parent base ds →
      ∀ c, Reachable parent (ds.headD base) c →
        c ∈ ds ∨ Reachable parent base c := by
  intro ds
  induction ds with
  | nil => intro _ c h; exact Or.inr h
  | cons a rest ih =>
    intro hw c h
    simp only [List.headD_cons] at h
    rcases reachable_cases h with heq | ⟨p, hp, hr⟩
    · exact Or.inl (heq ▸ List.mem_cons_self a rest)
    · cases rest with
      | nil =>
        have hpb : p = base := by
          have hwp : parent a = some base := hw
          rw [hwp] at hp
          exact (Option.some.inj hp).symm
        exact Or.inr (hpb ▸ hr)
      | cons q rest2 =>
        have hpq : p = q := by
          have hwq : parent a = some q := hw.1
          rw [hwq] at hp
          exact (Option.some.inj hp).symm
        rcases ih hw.2 c (by rwa [hpq] at hr) with hm | hrb
        · exact Or.inl (List.mem_cons_of_mem _ hm)
        · exact Or.inr hrb

theorem applyAll_of_upChain (parent : Nat → Option Nat) :
    ∀ (cs : List Nat) (s : Nat), upChain parent s cs →
      applyAll parent s cs = some (cs.getLastD s) := by
  intro cs
  induction cs with
  | nil => intro s _; rfl
  | cons c rest ih =>
    intro s h
    simp only [applyAll, applyCommit, h.1, if_pos, List.getLastD_cons]
    exact ih c h.2

/-- C7.  For a linear history whose new commits (newest first) are `ds`
on top of the merge base, `get_commit_list` returns exactly the commits
reachable from the branch tip and not from the base, oldest first (each
returned commit's parent is the preceding one, starting from the base),
and replaying the returned sequence in order onto the base reproduces the
tip. -/
theorem get_commit_list_spec (parent : Nat → Option Nat) (base fuel : Nat)
    (ds : List Nat) (hw : walkChain parent base ds) (hb : base ∉ ds)
    (hf : ds.length ≤ fuel)
    (hacyc : ∀ c ∈ ds, ¬ Reachable parent base c) :
    (∀ c, c ∈ get_commit_list parent fuel base (ds.headD base) ↔
       (Reachable parent (ds.headD base) c ∧ ¬ Reachable parent base c)) ∧
    upChain parent base (get_commit_list parent fuel base (ds.headD base)) ∧
    applyAll parent base (get_commit_list parent fuel base (ds.headD base)) =
      some (ds.headD base) := by
  have hout : get_commit_list parent fuel base (ds.headD base) = ds.reverse := by
    unfold get_commit_list
    rw [revListRange_walkChain parent base ds fuel hw hb hf]
  have hup : upChain parent base ds.reverse :=
    upChain_reverse_of_walkChain parent base ds hw
  refine ⟨?_, ?_, ?_⟩
  · intro c
    rw [hout, List.mem_reverse]
    constructor
    · intro hc
      exact ⟨mem_reachable_of_walkChain parent base ds hw c hc, hacyc c hc⟩
    · rintro ⟨hr, hnr⟩
      rcases reachable_mem_of_walkChain parent base ds hw c hr with hm | hrb
      · exact hm
      · exact absurd hrb hnr
  · rw [hout]; exact hup
  · rw [hout, applyAll_of_upChain parent ds.reverse base hup, getLastD_reverse]

/-- Ancestors of a commit in the linear fixture history have smaller
numbers. -/
theorem reachable_wParent_le {a c : Nat} (h : Reachable wParent a c) :
    c ≤ a := by
  induction h with
  | refl c => exact Nat.le_refl c
  | @step x p d hp _ ih =>
    cases x with
    | zero => simp [wParent] at hp
    | succ n =>
      have hpn : n = p := by simpa [wParent] using hp
      omega

/-- Witness for C7 on the history 0 ← 1 ← 2 ← 3 with merge base 1 and tip
3: the new commits are returned as `[2, 3]`. -/
theorem get_commit_list_spec_witness :
    walkChain wParent 1 [3, 2] ∧ (1 : Nat) ∉ [3, 2] ∧
    get_commit_list wParent 2 1 3 = [2, 3] ∧
    upChain wParent 1 (get_commit_list wParent 2 1 3) ∧
    applyAll wParent 1 (get_commit_list wParent 2 1 3) = some 3 := by
  have hw : walkChain wParent 1 [3, 2] := ⟨rfl, rfl⟩
  have hb : (1 : Nat) ∉ [3, 2] := by decide
  have hacyc : ∀ c ∈ [3, 2], ¬ Reachable wParent 1 c := by
    intro c hc hr
    have hle := reachable_wParent_le hr
    simp at hc
    rcases hc with rfl | rfl <;> omega
  have h := get_commit_list_spec wParent 1 2 [3, 2] hw hb (by decide) hacyc
  exact ⟨hw, hb, rfl, h.2.1, h.2.2⟩

/-! ## C5/C6: the summary-line parser against the spec grammar -/

theorem dropLit_append (pre s : List Char) : dropLit pre (pre ++ s) = some s := by
  induction pre with
  | nil => rfl
  | cons c pre ih => simp [dropLit, ih]

theorem takeWhile_all_append (p : Char → Bool) (ds rest : List Char)
    (hall : ds.all p = true)
    (hrest : ∀ c, rest.head? = some c → p c = false) :
    (ds ++ rest).takeWhile p = ds ∧ (ds ++ rest).dropWhile p = rest := by
  induction ds with
  | nil =>
    cases rest with
    | nil => exact ⟨rfl, rfl⟩
    | cons c r =>
      have hc : p c = false := hrest c rfl
      simp [List.takeWhile_cons, List.dropWhile_cons, hc]
  | cons d ds ih =>
    simp only [List.all_cons, Bool.and_eq_true] at hall
    have := ih hall.2
    simp [List.takeWhile_cons, List.dropWhile_cons, hall.1, this.1, this.2]

theorem digits1_append (ds rest : List Char) (hne : ds ≠ [])
    (hall : ds.all Char.isDigit = true)
    (hrest : ∀ c, rest.head? = some c → c.isDigit = false) :
    digits1 (ds ++ rest) = some (natOfDigits ds, rest) := by
  obtain ⟨ht, hd⟩ := takeWhile_all_append Char.isDigit ds rest hall hrest
  simp [digits1, ht, hd, hne]

theorem notDigit_of_head_space (l : List Char) (h : l.head? = some ' ') :
    ∀ c, l.head? = some c → c.isDigit = false := by
  intro c hc
  rw [h] at hc
  injection hc with h2
  rw [← h2]
  decide

theorem optS_flag_changed (b : Bool) (t : List Char) :
    optS ((if b then ['s'] else []) ++ (" changed".toList ++ t)) =
      " changed".toList ++ t := by
  cases b <;> rfl

theorem optS_flag_plus (b : Bool) (t : List Char) :
    optS ((if b then ['s'] else []) ++ ("(+)".toList ++ t)) =
      "(+)".toList ++ t := by
  cases b <;> rfl

theorem optS_flag_minus (b : Bool) (t : List Char) :
    optS ((if b then ['s'] else []) ++ ("(-)".toList ++ t)) =
      "(-)".toList ++ t := by
  cases b <;> rfl

theorem insClause_part (ds : List Char) (pl : Bool) (rest : List Char)
    (hne : ds ≠ []) (hall : ds.all Char.isDigit = true) :
    insClause (insPart (some (ds, pl)) ++ rest) =
      some (natOfDigits ds, rest) := by
  have hdig := digits1_append ds
    (" insertion".toList ++ ((if pl then ['s'] else []) ++ ("(+)".toList ++ rest)))
    hne hall (notDigit_of_head_space _ rfl)
  simp only [insPart, insClause, List.append_assoc, dropLit_append,
    Option.bind_eq_bind, Option.some_bind, Option.some_bind', hdig]
  cases pl <;> rfl

theorem delClause_part (ds : List Char) (pl : Bool) (rest : List Char)
    (hne : ds ≠ []) (hall : ds.all Char.isDigit = true) :
    delClause (delPart (some (ds, pl)) ++ rest) =
      some (natOfDigits ds, rest) := by
  have hdig := digits1_append ds
    (" deletion".toList ++ ((if pl then ['s'] else []) ++ ("(-)".toList ++ rest)))
    hne hall (notDigit_of_head_space _ rfl)
  simp only [delPart, delClause, List.append_assoc, dropLit_append,
    Option.bind_eq_bind, Option.some_bind, Option.some_bind', hdig]
  cases pl <;> rfl

/-- The insertion group cannot match at a deletion clause: after the
digits, `" insertion"` is checked against `" deletion..."` and fails. -/
theorem insClause_delPart (ds : List Char) (pl : Bool) (rest : List Char)
    (hne : ds ≠ []) (hall : ds.all Char.isDigit = true) :
    insClause (delPart (some (ds, pl)) ++ rest) = none := by
  have hdig := digits1_append ds
    (" deletion".toList ++ ((if pl then ['s'] else []) ++ ("(-)".toList ++ rest)))
    hne hall (notDigit_of_head_space _ rfl)
  simp only [delPart, insClause, List.append_assoc, dropLit_append,
    Option.bind_eq_bind, Option.some_bind, Option.some_bind', hdig]
  cases pl <;> rfl

theorem insClause_part_nil (ds : List Char) (pl : Bool)
    (hne : ds ≠ []) (hall : ds.all Char.isDigit = true) :
    insClause (insPart (some (ds, pl))) = some (natOfDigits ds, []) := by
  have := insClause_part ds pl [] hne hall
  simpa using this

theorem delClause_part_nil (ds : List Char) (pl : Bool)
    (hne : ds ≠ []) (hall : ds.all Char.isDigit = true) :
    delClause (delPart (some (ds, pl))) = some (natOfDigits ds, []) := by
  have := delClause_part ds pl [] hne hall
  simpa using this

theorem insClause_delPart_nil (ds : List Char) (pl : Bool)
    (hne : ds ≠ []) (hall : ds.all Char.isDigit = true) :
    insClause (delPart (some (ds, pl))) = none := by
  have := insClause_delPart ds pl [] hne hall
  simpa using this

/-- The regex accepts every assembled summary line, capturing the two
optional counts. -/
theorem shortstatMatch_mk (nf : List Char) (fp : Bool)
    (ins del : Option (List Char × Bool))
    (hnf : nf ≠ []) (hnfd : nf.all Char.isDigit = true)
    (hins : ∀ dsp, ins = some dsp → dsp.1 ≠ [] ∧ dsp.1.all Char.isDigit = true)
    (hdel : ∀ dsp, del = some dsp → dsp.1 ≠ [] ∧ dsp.1.all Char.isDigit = true) :
    shortstatMatch (mkShortstat nf fp ins del) =
      some (ins.map (fun p => natOfDigits p.1),
            del.map (fun p => natOfDigits p.1)) := by
  have hdig := digits1_append nf
    (" file".toList ++ ((if fp then ['s'] else []) ++
      (" changed".toList ++ (insPart ins ++ delPart del))))
    hnf hnfd (notDigit_of_head_space _ rfl)
  simp only [mkShortstat, shortstatMatch, List.append_assoc, dropLit_append,
    Option.bind_eq_bind, Option.some_bind, Option.some_bind', hdig,
    optS_flag_changed]
  rcases ins with _ | ⟨ds1, pl1⟩
  · rcases del with _ | ⟨ds2, pl2⟩
    · rfl
    · obtain ⟨hne2, hall2⟩ := hdel (ds2, pl2) rfl
      simp only [insPart, List.nil_append,
        insClause_delPart_nil ds2 pl2 hne2 hall2,
        delClause_part_nil ds2 pl2 hne2 hall2]
      rfl
  · obtain ⟨hne1, hall1⟩ := hins (ds1, pl1) rfl
    rcases del with _ | ⟨ds2, pl2⟩
    · simp only [delPart, List.append_nil,
        insClause_part_nil ds1 pl1 hne1 hall1]
      rfl
    · obtain ⟨hne2, hall2⟩ := hdel (ds2, pl2) rfl
      simp only [insClause_part ds1 pl1 (delPart (some (ds2, pl2))) hne1 hall1,
        delClause_part_nil ds2 pl2 hne2 hall2]
      rfl

/-- Counterexample to C5 as stated: the string
`2 files changed, 1 insertion(+), 5 deletions(-)` matches the grammar the
spec writes (insertion count 1, deletion count 5) yet the parser raises;
and the string ` 1 file changed junk` does not match the grammar yet the
parser returns 0 instead of raising (the regex requires a leading space
and matches only a prefix of the line). -/
theorem shortstat_grammar_counterexample :
    specGrammarParse "2 files changed, 1 insertion(+), 5 deletions(-)".toList =
      some (1, 5) ∧
    get_shortstat_total "2 files changed, 1 insertion(+), 5 deletions(-)".toList =
      .error (.runtimeError shortstatErrMsg) ∧
    specGrammarParse " 1 file changed junk".toList = none ∧
    get_shortstat_total " 1 file changed junk".toList = .ok 0 :=
  ⟨rfl, rfl, rfl, rfl⟩

/-- C5 (amended).  Relative to the grammar the code actually implements —
a mandatory leading space, then the spec clauses, matched as a prefix of
the line — the spec rules all hold: the file count (singular or plural) is
ignored, an absent insertion or deletion clause contributes 0, singular
and plural clause forms both parse, the result is the insertion count
plus the deletion count, a line not beginning with a grammar match raises
the parse error, and text after the matched prefix is ignored. -/
theorem shortstat_parser_amended :
    (∀ (nf : List Char) (fp : Bool) (ins del : Option (List Char × Bool)),
       nf ≠ [] → nf.all Char.isDigit = true →
       (∀ dsp, ins = some dsp → dsp.1 ≠ [] ∧ dsp.1.all Char.isDigit = true) →
       (∀ dsp, del = some dsp → dsp.1 ≠ [] ∧ dsp.1.all Char.isDigit = true) →
       get_shortstat_total (mkShortstat nf fp ins del) =
         .ok (clauseVal ins + clauseVal del)) ∧
    (∀ s, shortstatMatch s = none →
       get_shortstat_total s = .error (.runtimeError shortstatErrMsg)) ∧
    get_shortstat_total
      " 2 files changed, 1 insertion(+), 5 deletions(-) and trailing text".toList =
      .ok 6 := by
  refine ⟨?_, ?_, rfl⟩
  · intro nf fp ins del hnf hnfd hins hdel
    simp only [get_shortstat_total,
      shortstatMatch_mk nf fp ins del hnf hnfd hins hdel]
    rcases ins with _ | ⟨ds1, pl1⟩ <;> rcases del with _ | ⟨ds2, pl2⟩ <;> rfl
  · intro s h
    simp only [get_shortstat_total, h]

/-- Witness for C5 (amended) on the line
` 2 files changed, 1 insertion(+), 5 deletions(-)`. -/
theorem shortstat_parser_amended_witness :
    mkShortstat ['2'] true (some (['1'], false)) (some (['5'], true)) =
      " 2 files changed, 1 insertion(+), 5 deletions(-)".toList ∧
    get_shortstat_total
      (mkShortstat ['2'] true (some (['1'], false)) (some (['5'], true))) =
      .ok 6 := by
  refine ⟨rfl, ?_⟩
  exact shortstat_parser_amended.1 ['2'] true (some (['1'], false))
    (some (['5'], true)) (by decide) (by decide)
    (fun dsp h => by cases h; exact ⟨by decide, by decide⟩)
    (fun dsp h => by cases h; exact ⟨by decide, by decide⟩)

/-- Counterexample to C6 as stated: all three literal test vectors of the
spec raise the parse error instead of returning 6, 3 and 1 — the code
requires a leading space that the vectors lack. -/
theorem shortstat_vectors_counterexample :
    get_shortstat_total "2 files changed, 1 insertion(+), 5 deletions(-)".toList =
      .error (.runtimeError shortstatErrMsg) ∧
    get_shortstat_total "1 file changed, 3 insertions(+)".toList =
      .error (.runtimeError shortstatErrMsg) ∧
    get_shortstat_total "2 files changed, 1 deletion(-)".toList =
      .error (.runtimeError shortstatErrMsg) :=
  ⟨rfl, rfl, rfl⟩

/-- C6 (amended).  With the leading space `git` actually prints, the three
vectors parse to 6, 3 and 1, and a non-matching line raises the parse
error. -/
theorem shortstat_vectors_amended :
    get_shortstat_total " 2 files changed, 1 insertion(+), 5 deletions(-)".toList =
      .ok 6 ∧
    get_shortstat_total " 1 file changed, 3 insertions(+)".toList = .ok 3 ∧
    get_shortstat_total " 2 files changed, 1 deletion(-)".toList = .ok 1 ∧
    get_shortstat_total "not a shortstat line".toList =
      .error (.runtimeError shortstatErrMsg) :=
  ⟨rfl, rfl, rfl, rfl⟩
